import Mathlib

/-!
Verification development for the palmares route-composition core.

The definitions below are a shallow embedding of
`src/packages/server/src/router/routers.ts` (path-template scanning and the
router tree with upward propagation) and
`src/packages/server/src/server/routes.ts` (per-request dispatch, middleware
chain construction, path-parameter coercion).

Conventions of the embedding:
* A JavaScript string is a `List Char`; `splittedPath[index]` past the end of
  the array yields `undefined`, modelled as `Option Char` with `none` playing
  the role of `undefined`.
* Every `while` loop of the source becomes a fuel-indexed recursive function
  returning `Option`; `none` means the loop did not finish within the given
  fuel.  A loop of the source that never terminates is one that returns `none`
  for every fuel.
* JavaScript objects used as string-keyed dictionaries (and `Map`s) become
  association lists with JavaScript insertion semantics: re-assigning an
  existing key keeps its position, a new key is appended.
* Object identity of the mutable `__handlers` objects matters in the source
  (route entries capture the object by reference); the embedding makes this
  explicit with a heap of handler cells inside `World`.
-/

/-- The character `{`, written via its code point. -/
def lbraceChar : Char := Char.ofNat 123

/-- The character `}`, written via its code point. -/
def rbraceChar : Char := Char.ofNat 125

/-- `splittedPath[index]` of the source: JavaScript indexing past the end of
the array yields `undefined` (`none`). -/
def jsGet (s : List Char) (i : Nat) : Option Char := s.get? i

/-- JavaScript `acc += splittedPath[index]`: appending `undefined` to a string
appends the text "undefined". -/
def jsPush (acc : String) (c : Option Char) : String :=
  match c with
  | some ch => acc.push ch
  | none => acc ++ "undefined"

/-- The `ignoreSpaces` helper of the source: `if (splittedPath[index] === ' ')
index++` (it skips at most one space). -/
def skipSpace (s : List Char) (i : Nat) : Nat :=
  if jsGet s i = some ' ' then i + 1 else i

/-- JavaScript object / `Map` assignment `params[k] = v`: overwrite in place
if the key exists, otherwise append. -/
def mapSet {α : Type} : List (String × α) → String → α → List (String × α)
  | [], k, v => [(k, v)]
  | (k', v') :: rest, k, v =>
    if k' = k then (k', v) :: rest else (k', v') :: mapSet rest k v

/-- JavaScript object / `Map` lookup. -/
def mapGet {α : Type} : List (String × α) → String → Option α
  | [], _ => none
  | (k', v') :: rest, k => if k' = k then some v' else mapGet rest k

/-- `new Map([...a, ...b])` of the source: insert all of `a`, then all of `b`
(later entries win, keeping the position of an already-present key). -/
def mapUnion {α : Type} (a b : List (String × α)) : List (String × α) :=
  b.foldl (fun acc kv => mapSet acc kv.1 kv.2) a

/-- JavaScript `path.slice(start, stop)` for `0 ≤ start ≤ stop` (clamped at
the end of the string). -/
def jsSlice (s : List Char) (start stop : Nat) : List Char :=
  (s.drop start).take (stop - start)

/-- JavaScript `s.replace(pat, '')` with a *string* pattern: remove the first
occurrence of `pat` (replacing the empty pattern inserts nothing). -/
def listReplaceFirst (pat : List Char) : List Char → List Char
  | [] => if pat.isPrefixOf ([] : List Char) then ([] : List Char).drop pat.length else []
  | c :: rest =>
    if pat.isPrefixOf (c :: rest) then (c :: rest).drop pat.length
    else c :: listReplaceFirst pat rest

/-- `queryPath.replace(/^\?/g, '')`: strip a single leading question mark. -/
def stripLeadingQM : List Char → List Char
  | '?' :: rest => rest
  | s => s

/-- Descriptor stored in `__urlParamsAndPath.params`: `{ type, regex }`.  The
`regex` field stores the pattern source handed to `new RegExp`. -/
structure UrlParamD where
  type : List String
  regexSrc : String
deriving DecidableEq, Repr

/-- Descriptor stored in `__queryParamsAndPath.params`:
`{ type, isOptional, isArray, regex }`. -/
structure QueryParamD where
  type : List String
  isOptional : Bool
  isArray : Bool
  regexSrc : Option String
deriving DecidableEq, Repr

/-- Entry of `partsOfPath`: `{ part, isUrlParam }`. -/
structure PartOfPath where
  part : String
  isUrlParam : Bool
deriving DecidableEq, Repr

/-- `extractUrlParamsFromPath`, loop
`while (splittedPath[index] !== ':') { ignoreSpaces(); urlParamName += splittedPath[index]; index++; }`
(routers.ts lines 382-386).  Note that the loop only stops on a `:`; past the
end of the string it keeps reading `undefined` forever, so it exhausts any
fuel. -/
def urlNameLoop : Nat → List Char → Nat → String → Option (String × Nat)
  | 0, _, _, _ => none
  | fuel + 1, s, i, name =>
    if jsGet s i = some ':' then some (name, i)
    else
      let j := skipSpace s i
      urlNameLoop fuel s (j + 1) (jsPush name (jsGet s j))

/-- The regex-collecting loop
`while (splittedPath[index] !== '}') { ignoreSpaces(); regexAcc += splittedPath[index]; index++; }`
shared by `extractUrlParamsFromPath` (lines 367-371) and
`extractQueryParamsFromPath` (lines 283-287). -/
def braceRegexLoop : Nat → List Char → Nat → String → Option (String × Nat)
  | 0, _, _, _ => none
  | fuel + 1, s, i, regexAcc =>
    if jsGet s i = some rbraceChar then some (regexAcc, i)
    else
      let j := skipSpace s i
      braceRegexLoop fuel s (j + 1) (jsPush regexAcc (jsGet s j))

/-- `extractUrlParamsFromPath`, inner loop
`while (splittedPath[index] !== '>') { ignoreSpaces(); urlParamType += splittedPath[index]; index++; }`
(routers.ts lines 374-378). -/
def urlTypeCharsLoop : Nat → List Char → Nat → String → Option (String × Nat)
  | 0, _, _, _ => none
  | fuel + 1, s, i, ty =>
    if jsGet s i = some '>' then some (ty, i)
    else
      let j := skipSpace s i
      urlTypeCharsLoop fuel s (j + 1) (jsPush ty (jsGet s j))

/-- `extractUrlParamsFromPath`, the `:`-branch loop (routers.ts lines
362-380): `while (splittedPath[index] !== '>') { ignoreSpaces();
if (':') index++; if ('{') { regex loop } else { type loop } }`. -/
def urlTypeLoop : Nat → List Char → Nat → String → String → Option (String × String × Nat)
  | 0, _, _, _, _ => none
  | fuel + 1, s, i, ty, rx =>
    if jsGet s i = some '>' then some (ty, rx, i)
    else
      let i1 := skipSpace s i
      let i2 := if jsGet s i1 = some ':' then i1 + 1 else i1
      if jsGet s i2 = some lbraceChar then
        match braceRegexLoop fuel s (i2 + 1) rx with
        | none => none
        | some (rx', i3) => urlTypeLoop fuel s (i3 + 1) ty rx'
      else
        match urlTypeCharsLoop fuel s i2 ty with
        | none => none
        | some (ty', i3) => urlTypeLoop fuel s i3 ty' rx

/-- `extractUrlParamsFromPath`, outer loop (routers.ts lines 356-387):
`while (splittedPath[index] !== '>') { ignoreSpaces(); if (':') { index++;
type/regex loop } else { name loop } }`. -/
def urlOuterLoop : Nat → List Char → Nat → String → String → String →
    Option (String × String × String × Nat)
  | 0, _, _, _, _, _ => none
  | fuel + 1, s, i, name, ty, rx =>
    if jsGet s i = some '>' then some (name, ty, rx, i)
    else
      let i1 := skipSpace s i
      if jsGet s i1 = some ':' then
        match urlTypeLoop fuel s (i1 + 1) ty rx with
        | none => none
        | some (ty', rx', i2) => urlOuterLoop fuel s i2 name ty' rx'
      else
        match urlNameLoop fuel s i1 name with
        | none => none
        | some (name', i2) => urlOuterLoop fuel s i2 name' ty rx

/-- `BaseRouter.extractUrlParamsFromPath` (routers.ts lines 335-395): scans a
`<name: type-or-regex>` group starting at the `<`, records the parameter
descriptor and returns the updated parameter map together with the index just
past the closing `>`. -/
def extractUrlParamsFromPath (fuel : Nat) (s : List Char)
    (params : List (String × UrlParamD)) (initialIndex : Nat) :
    Option (List (String × UrlParamD) × Nat) :=
  match urlOuterLoop fuel s (initialIndex + 1) "" "" "" with
  | none => none
  | some (name, ty, rx, i) => some (mapSet params name ⟨[ty], rx⟩, i + 1)

/-- `extractQueryParamsFromPath`, the enum loop (routers.ts lines 297-310):
`index++; ignoreSpaces();` then
`while (splittedPath[index] !== ')' && index < length) { ignoreSpaces';
if ('|') { push type; reset } else { type += char }; index++ }`.
The caller performs the leading `index++; ignoreSpaces()`. -/
def enumLoop : Nat → List Char → Nat → String → List String →
    Option (String × List String × Nat)
  | 0, _, _, _, _ => none
  | fuel + 1, s, i, ty, tys =>
    if jsGet s i ≠ some ')' ∧ i < s.length then
      let j := skipSpace s i
      if jsGet s j = some '|' then enumLoop fuel s (j + 1) "" (tys ++ [ty])
      else enumLoop fuel s (j + 1) (jsPush ty (jsGet s j)) tys
    else some (ty, tys, i)

/-- State threaded through the query `spec` loop: the type accumulator, the
collected enum types, and the two modifier flags. -/
structure SpecState where
  ty : String
  tys : List String
  isArray : Bool
  isOptional : Bool
deriving DecidableEq, Repr

/-- `extractQueryParamsFromPath`, the spec loop (routers.ts lines 291-315):
`while (splittedPath[index] !== '&' && index < length) { ignoreSpaces();
if ('?') isOptional = true; else if ('[' and next ']') { isArray = true;
index += 2; } else if ('(') { enum loop; if (')') push type; } else
type += char; index++; }`.  Note the `[]` branch: `index = index + 2`
followed by the shared `index++` consumes three characters, overshooting a
`&` separator that directly follows `[]`. -/
def specLoop : Nat → List Char → Nat → SpecState → Option (SpecState × Nat)
  | 0, _, _, _ => none
  | fuel + 1, s, i, st =>
    if jsGet s i ≠ some '&' ∧ i < s.length then
      let j := skipSpace s i
      if jsGet s j = some '?' then specLoop fuel s (j + 1) { st with isOptional := true }
      else if jsGet s j = some '[' ∧ jsGet s (j + 1) = some ']' then
        specLoop fuel s (j + 2 + 1) { st with isArray := true }
      else if jsGet s j = some '(' then
        let j1 := skipSpace s (j + 1)
        match enumLoop fuel s j1 st.ty st.tys with
        | none => none
        | some (ty', tys', i2) =>
          let tys'' := if jsGet s i2 = some ')' then tys' ++ [ty'] else tys'
          specLoop fuel s (i2 + 1) { st with ty := ty', tys := tys'' }
      else specLoop fuel s (j + 1) { st with ty := jsPush st.ty (jsGet s j) }
    else some (st, i)

/-- State of one `name=spec` pair: name, type accumulator, regex accumulator,
enum type list and the modifier flags. -/
structure QPState where
  name : String
  ty : String
  rx : String
  tys : List String
  isArray : Bool
  isOptional : Bool
deriving DecidableEq, Repr

/-- `extractQueryParamsFromPath`, the per-pair loop (routers.ts lines
276-320): `while (splittedPath[index] !== '&' && index < length) {
ignoreSpaces(); if ('&') index++; else if ('=') { index++; if ('{') { regex
loop; index++ }; if (':') index++; spec loop } else { name += char; index++ } }`. -/
def queryInnerLoop : Nat → List Char → Nat → QPState → Option (QPState × Nat)
  | 0, _, _, _ => none
  | fuel + 1, s, i, st =>
    if jsGet s i ≠ some '&' ∧ i < s.length then
      let j := skipSpace s i
      if jsGet s j = some '&' then queryInnerLoop fuel s (j + 1) st
      else if jsGet s j = some '=' then
        let j1 := j + 1
        match (if jsGet s j1 = some lbraceChar then
                 match braceRegexLoop fuel s (j1 + 1) st.rx with
                 | none => none
                 | some (rx', i2) => some (rx', i2 + 1)
               else some (st.rx, j1)) with
        | none => none
        | some (rx', j2) =>
          let j3 := if jsGet s j2 = some ':' then j2 + 1 else j2
          match specLoop fuel s j3 ⟨st.ty, st.tys, st.isArray, st.isOptional⟩ with
          | none => none
          | some (sp, i3) =>
            queryInnerLoop fuel s i3
              ⟨st.name, sp.ty, rx', sp.tys, sp.isArray, sp.isOptional⟩
      else queryInnerLoop fuel s (j + 1) { st with name := jsPush st.name (jsGet s j) }
    else some (st, i)

/-- `extractQueryParamsFromPath`, outer loop (routers.ts lines 269-330): for
each pair, run the per-pair loop, then
`if (queryParamTypes.length === 0) queryParamTypes.push(queryParamType);
params[queryParamName] = { type, isOptional, isArray, regex }; index++;`. -/
def queryOuterLoop : Nat → List Char → Nat → List (String × QueryParamD) →
    Option (List (String × QueryParamD) × Nat)
  | 0, _, _, _ => none
  | fuel + 1, s, i, params =>
    if i < s.length then
      match queryInnerLoop fuel s i ⟨"", "", "", [], false, false⟩ with
      | none => none
      | some (st, i2) =>
        let tys := if st.tys = [] then [st.ty] else st.tys
        let params' := mapSet params st.name
          ⟨tys, st.isOptional, st.isArray, if st.rx ≠ "" then some st.rx else none⟩
        queryOuterLoop fuel s (i2 + 1) params'
    else some (params, i)

/-- `BaseRouter.extractQueryParamsFromPath` (routers.ts lines 248-333):
`let index = initialIndex; index++;` then the outer loop above.  Returns the
updated query-parameter map and the final index. -/
def extractQueryParamsFromPath (fuel : Nat) (s : List Char)
    (params : List (String × QueryParamD)) (initialIndex : Nat) :
    Option (List (String × QueryParamD) × Nat) :=
  queryOuterLoop fuel s (initialIndex + 1) params

/-- The result of `BaseRouter.extractUrlAndQueryParametersFromPath`. -/
structure ParsedPath where
  urlParams : List (String × UrlParamD)
  queryParams : List (String × QueryParamD)
  urlPath : String
  queryPath : String
  partsOfPath : List PartOfPath
deriving DecidableEq, Repr

/-- State of the character scan of `extractUrlAndQueryParametersFromPath`. -/
structure MainScanState where
  index : Nat
  partOfPath : String
  partsOfPath : List PartOfPath
  urlParams : List (String × UrlParamD)
  queryParams : List (String × QueryParamD)
  queryPath : List Char
deriving DecidableEq, Repr

/-- `extractUrlAndQueryParametersFromPath`, main loop (routers.ts lines
427-455): on `<` scan a url parameter and push the last inserted key as a
url-param path part; on `?` scan the query parameters and remember the
consumed slice; on any other non-`/` character extend the current literal
part; on `/` flush the current literal part. -/
def mainParseLoop : Nat → List Char → MainScanState → Option MainScanState
  | 0, _, _ => none
  | fuel + 1, s, st =>
    if s.length > st.index then
      if jsGet s st.index = some '<' then
        match extractUrlParamsFromPath fuel s st.urlParams st.index with
        | none => none
        | some (urlParams', i') =>
          let keys := urlParams'.map Prod.fst
          let lastInsertedKey := match keys.getLast? with
            | some k => k
            | none => "undefined"
          mainParseLoop fuel s
            { st with index := i', urlParams := urlParams',
                      partsOfPath := st.partsOfPath ++ [⟨lastInsertedKey, true⟩] }
      else if jsGet s st.index = some '?' then
        match extractQueryParamsFromPath fuel s st.queryParams st.index with
        | none => none
        | some (queryParams', i') =>
          mainParseLoop fuel s
            { st with index := i', queryParams := queryParams',
                      queryPath := jsSlice s st.index i' }
      else if jsGet s st.index ≠ some '/' then
        mainParseLoop fuel s
          { st with index := st.index + 1,
                    partOfPath := jsPush st.partOfPath (jsGet s st.index) }
      else
        let st' :=
          if st.partOfPath ≠ "" then
            { st with partsOfPath := st.partsOfPath ++ [⟨st.partOfPath, false⟩],
                      partOfPath := "" }
          else st
        mainParseLoop fuel s { st' with index := st'.index + 1 }
    else some st

/-- `BaseRouter.extractUrlAndQueryParametersFromPath` (routers.ts lines
402-470): run the main scan, flush a trailing literal part, then
`urlPath = path.replace(queryPath, '')` and
`queryPath = queryPath.replace(/^\?/g, '')`. -/
def extractUrlAndQueryParametersFromPath (fuel : Nat) (path : String) :
    Option ParsedPath :=
  let s := path.data
  match mainParseLoop fuel s ⟨0, "", [], [], [], []⟩ with
  | none => none
  | some st =>
    let parts :=
      if st.partOfPath ≠ "" then st.partsOfPath ++ [⟨st.partOfPath, false⟩]
      else st.partsOfPath
    some ⟨st.urlParams, st.queryParams,
          String.mk (listReplaceFirst st.queryPath s),
          String.mk (stripLeadingQM st.queryPath), parts⟩

/-- The closed set of specific HTTP methods of `MethodsRouter`
(`get/post/delete/options/head/put/patch`); `all` is handled separately. -/
inductive HttpMethod
  | mGet
  | mPost
  | mDelete
  | mOptions
  | mHead
  | mPut
  | mPatch
deriving DecidableEq, Repr

/-- One `__handlers` object: an optional handler (identified by a number) per
method plus the `all` entry. -/
structure HandlerSet where
  hGet : Option Nat
  hPost : Option Nat
  hDelete : Option Nat
  hOptions : Option Nat
  hHead : Option Nat
  hPut : Option Nat
  hPatch : Option Nat
  hAll : Option Nat
deriving DecidableEq, Repr

/-- The freshly created `{}` handlers object. -/
def emptyHandlers : HandlerSet := ⟨none, none, none, none, none, none, none, none⟩

/-- `Object.keys(handlers).length > 0` is false: no method key present. -/
def HandlerSet.isEmptyH (h : HandlerSet) : Bool :=
  h.hGet.isNone && h.hPost.isNone && h.hDelete.isNone && h.hOptions.isNone &&
  h.hHead.isNone && h.hPut.isNone && h.hPatch.isNone && h.hAll.isNone

/-- Read the handler stored for a specific method. -/
def HandlerSet.getM : HttpMethod → HandlerSet → Option Nat
  | .mGet, h => h.hGet
  | .mPost, h => h.hPost
  | .mDelete, h => h.hDelete
  | .mOptions, h => h.hOptions
  | .mHead, h => h.hHead
  | .mPut, h => h.hPut
  | .mPatch, h => h.hPatch

/-- `{ ...handlers, m: v }` for a specific method `m`. -/
def HandlerSet.setM : HttpMethod → Nat → HandlerSet → HandlerSet
  | .mGet, v, h => { h with hGet := some v }
  | .mPost, v, h => { h with hPost := some v }
  | .mDelete, v, h => { h with hDelete := some v }
  | .mOptions, v, h => { h with hOptions := some v }
  | .mHead, v, h => { h with hHead := some v }
  | .mPut, v, h => { h with hPut := some v }
  | .mPatch, v, h => { h with hPatch := some v }

/-- `delete existingHandlers.all` (MethodsRouter.get and the other specific
method definitions, routers.ts lines 506, 532, 558, ...). -/
def deleteAllField (h : HandlerSet) : HandlerSet := { h with hAll := none }

/-- `for (const key of Object.keys(handlers)) if (key !== 'all') delete
handlers[key]` (MethodsRouter.all, routers.ts line 692). -/
def keepOnlyAllField (h : HandlerSet) : HandlerSet :=
  { emptyHandlers with hAll := h.hAll }

/-- The handler-set value produced by a specific-method call: strip `all`,
then `{ ...existingHandlers, m: handler }`. -/
def specificTransition (m : HttpMethod) (v : Nat) (h : HandlerSet) : HandlerSet :=
  HandlerSet.setM m v (deleteAllField h)

/-- The handler-set value produced by `all`: strip the specific methods, then
`{ ...existingHandlers, all: handler }`. -/
def allTransition (v : Nat) (h : HandlerSet) : HandlerSet :=
  { keepOnlyAllField h with hAll := some v }

/-- One entry of `__completePaths` (routers.ts lines 75-92).  `handlersRef`
stores the *reference* `handlers: child.__handlers` — index into the heap of
handler cells — because the source keeps the object, not a copy. -/
structure RouteEntry where
  middlewares : List Nat
  partsOfPath : List PartOfPath
  urlParams : List (String × UrlParamD)
  urlPath : String
  queryParams : List (String × QueryParamD)
  queryPath : String
  routerId : Nat
  handlersRef : Option Nat
deriving DecidableEq, Repr

/-- One `BaseRouter` instance.  Middleware descriptors and handlers are
identified by numbers; `handlersRef` is the current `__handlers` object
(a heap cell index), `none` while `__handlers` is still `undefined`. -/
structure RouterObj where
  path : String
  partsOfPath : List PartOfPath
  queryPath : String
  queryParams : List (String × QueryParamD)
  urlPath : String
  urlParams : List (String × UrlParamD)
  completePaths : List (String × RouteEntry)
  parentRouter : Option Nat
  wasCreatedFromNested : Bool
  children : Option (List Nat)
  middlewares : List Nat
  handlersRef : Option Nat
deriving DecidableEq, Repr

/-- Placeholder returned when a router index is unused. -/
def defaultRouterObj : RouterObj :=
  ⟨"", [], "", [], "", [], [], none, false, none, [], none⟩

/-- The mutable state of an application: all router objects and the heap of
`__handlers` objects (handler cells). -/
structure World where
  routers : List RouterObj
  cells : List HandlerSet
deriving DecidableEq, Repr

def World.getRouter (w : World) (i : Nat) : RouterObj :=
  w.routers.getD i defaultRouterObj

def World.setRouter (w : World) (i : Nat) (r : RouterObj) : World :=
  { w with routers := w.routers.set i r }

def World.getCell (w : World) (i : Nat) : HandlerSet :=
  w.cells.getD i emptyHandlers

/-- The `BaseRouter` constructor (routers.ts lines 99-114): parse the path
and record the parsed pieces; `__handlers` starts `undefined`, middlewares
empty, no parent, no children, `__completePaths` empty.  Returns the updated
world and the new router's index. -/
def newRouter (fuel : Nat) (path : String) (w : World) : Option (World × Nat) :=
  match extractUrlAndQueryParametersFromPath fuel path with
  | none => none
  | some p =>
    some ({ w with routers := w.routers ++
              [⟨path, p.partsOfPath, p.queryPath, p.queryParams, p.urlPath,
                p.urlParams, [], none, false, none, [], none⟩] },
          w.routers.length)

/-- `BaseRouter.newNested` (routers.ts lines 121-139): same construction but
with `__wasCreatedFromNested = true`. -/
def newNestedRouter (fuel : Nat) (path : String) (w : World) : Option (World × Nat) :=
  match newRouter fuel path w with
  | none => none
  | some (w', i) =>
    some (w'.setRouter i { w'.getRouter i with wasCreatedFromNested := true }, i)

/-- `MethodsRouter.get/post/...` for a specific method (routers.ts lines
504-528 and the analogous definitions): take the current `__handlers` object
(or a fresh `{}` when `undefined`), `delete existingHandlers.all` *mutating
that object in place*, then assign a *new* object
`{ ...existingHandlers, m: handler }` to `__handlers`.  Route entries that
captured the old object keep referring to the old (now `all`-stripped) cell. -/
def routerSetMethod (w : World) (r : Nat) (m : HttpMethod) (v : Nat) : World :=
  let router := w.getRouter r
  match router.handlersRef with
  | none =>
    let c := w.cells.length
    let w1 : World := { w with cells := w.cells ++ [specificTransition m v emptyHandlers] }
    w1.setRouter r { router with handlersRef := some c }
  | some c0 =>
    let stripped := deleteAllField (w.getCell c0)
    let w1 : World := { w with cells := w.cells.set c0 stripped }
    let c := w1.cells.length
    let w2 : World := { w1 with cells := w1.cells ++ [HandlerSet.setM m v stripped] }
    w2.setRouter r { router with handlersRef := some c }

/-- `MethodsRouter.all` (routers.ts lines 688-716): delete every non-`all`
key of the current `__handlers` object in place, then assign a new object
`{ ...existingHandlers, all: handler }` to `__handlers`. -/
def routerSetAll (w : World) (r : Nat) (v : Nat) : World :=
  let router := w.getRouter r
  match router.handlersRef with
  | none =>
    let c := w.cells.length
    let w1 : World := { w with cells := w.cells ++ [{ emptyHandlers with hAll := some v }] }
    w1.setRouter r { router with handlersRef := some c }
  | some c0 =>
    let stripped := keepOnlyAllField (w.getCell c0)
    let w1 : World := { w with cells := w.cells.set c0 stripped }
    let c := w1.cells.length
    let w2 : World := { w1 with cells := w1.cells ++ [{ stripped with hAll := some v }] }
    w2.setRouter r { router with handlersRef := some c }

/-- `BaseRouter.middlewares` (routers.ts lines 233-246):
`__middlewares = __middlewares.concat(definedMiddlewares)` and, for every
existing complete-path entry,
`handler.middlewares = definedMiddlewares.concat(handler.middlewares)`
(the new middlewares are *prepended* to already-materialized entries of this
router's own table; ancestors' tables are not touched). -/
def routerMiddlewares (w : World) (r : Nat) (mws : List Nat) : World :=
  let router := w.getRouter r
  w.setRouter r
    { router with
      middlewares := router.middlewares ++ mws,
      completePaths := router.completePaths.map
        (fun kv => (kv.1, { kv.2 with middlewares := mws ++ kv.2.middlewares })) }

/-- The entry written by the second branch of `appendChildToParentRouter`
(routers.ts lines 216-225) for an existing entry `childPathData` of the
child's table: middlewares and parameter maps re-merged with the current
ancestor's own, `router: child`, `handlers: childPathData.handlers`. -/
def childEntryToParentEntry (router : RouterObj) (childId : Nat)
    (fullUrlPath fullQueryPath : String) (cd : RouteEntry) : RouteEntry :=
  { middlewares := router.middlewares ++ cd.middlewares
  , partsOfPath := router.partsOfPath ++ cd.partsOfPath
  , urlParams := mapUnion router.urlParams cd.urlParams
  , urlPath := fullUrlPath ++ cd.queryPath
  , queryParams := mapUnion router.queryParams cd.queryParams
  , queryPath := fullQueryPath ++ "&" ++ cd.queryPath
  , routerId := childId
  , handlersRef := cd.handlersRef }

/-- One iteration of the `while (router)` loop of
`BaseRouter.appendChildToParentRouter` (routers.ts lines 192-228), acting on
ancestor `r` with descendant `childId`:
if the child has handlers directly, set
`router.__completePaths[router.urlPath + child.urlPath]` to a merged entry;
if the child's own table is non-empty, for each of its entries set
`router.__completePaths[router.path + childPath]` to a re-merged entry. -/
def appendStep (w : World) (r childId : Nat) : World :=
  let router := w.getRouter r
  let child := w.getRouter childId
  let fullUrlPath := router.urlPath ++ child.urlPath
  let fullQueryPath := router.queryPath ++ "&" ++ child.queryPath
  let existsHandlersOnChild :=
    match child.handlersRef with
    | some c => !(w.getCell c).isEmptyH
    | none => false
  let existsChildHandlersOnChild := decide (0 < child.completePaths.length)
  let directEntry : RouteEntry :=
    { middlewares := router.middlewares ++ child.middlewares
    , partsOfPath := router.partsOfPath ++ child.partsOfPath
    , urlParams := mapUnion router.urlParams child.urlParams
    , urlPath := fullUrlPath
    , queryParams := mapUnion router.queryParams child.queryParams
    , queryPath := fullQueryPath
    , routerId := childId
    , handlersRef := child.handlersRef }
  let w1 :=
    if existsHandlersOnChild then
      w.setRouter r
        { router with completePaths := mapSet router.completePaths fullUrlPath directEntry }
    else w
  if existsChildHandlersOnChild then
    ((w1.getRouter childId).completePaths).foldl
      (fun wAcc kv =>
        let rNow := wAcc.getRouter r
        let entry := childEntryToParentEntry router childId fullUrlPath fullQueryPath kv.2
        wAcc.setRouter r
          { rNow with completePaths := mapSet rNow.completePaths (router.path ++ kv.1) entry })
      w1
  else w1

/-- The full `while (router) { ...; router = router.__parentRouter }` walk of
`appendChildToParentRouter`: run `appendStep` at the current ancestor, then
continue at its parent; the loop ends when the parent reference is
`undefined`.  A cyclic parent chain never ends, hence the fuel. -/
def appendChildLoop : Nat → World → Option Nat → Nat → Option World
  | 0, _, _, _ => none
  | _ + 1, w, none, _ => some w
  | fuel + 1, w, some r, childId =>
    let w2 := appendStep w r childId
    appendChildLoop fuel w2 ((w2.getRouter r).parentRouter) childId

/-- `BaseRouter.appendChildToParentRouter(this, child)`: the walk starts at
the router itself. -/
def appendChildToParentRouter (fuel : Nat) (w : World) (r childId : Nat) : Option World :=
  appendChildLoop fuel w (some r) childId

/-- `BaseRouter.nested` with an *array* argument (routers.ts lines 145-175;
the function-argument form differs only in `isNested`/`child()` and is not
used here).  In source order: construct the throw-away
`IncludesRouter(this.path)` (its constructor parses the path), read
`doesChildrenAlreadyExists`, then for each child set
`__wasCreatedFromNested = false` (the array case) and
`__parentRouter = this` and run `appendChildToParentRouter(this, child)`;
finally record the children on the parent. -/
def nestedAttach (fuel : Nat) (w : World) (parentId : Nat) (childIds : List Nat) :
    Option World := do
  let (w, _includesRouterId) ← newRouter fuel (w.getRouter parentId).path w
  let doesChildrenAlreadyExists := (w.getRouter parentId).children.isSome
  let wAfter ← childIds.foldlM
    (fun wAcc childId => do
      let child := wAcc.getRouter childId
      let wAcc := wAcc.setRouter childId
        { child with wasCreatedFromNested := false, parentRouter := some parentId }
      appendChildToParentRouter fuel wAcc parentId childId)
    w
  let parent := wAfter.getRouter parentId
  let newChildren : Option (List Nat) :=
    if doesChildrenAlreadyExists then some ((parent.children).getD [] ++ childIds)
    else some childIds
  pure (wAfter.setRouter parentId { parent with children := newChildren })

/-- The upward chain of routers visited by `appendChildToParentRouter` when
it starts at `rid`: the router itself followed by its ancestors, cut off by
the fuel. -/
def parentChain : Nat → World → Option Nat → List Nat
  | 0, _, _ => []
  | _ + 1, _, none => []
  | fuel + 1, w, some r => r :: parentChain fuel w ((w.getRouter r).parentRouter)

/-- `paramType` of a `PathParams` descriptor (routes.ts `#getPathParameters`):
`'string'`, `'number'`, or a `RegExp`.  A `RegExp` value is represented by
its `test` function. -/
inductive PathParamTy
  | tString
  | tNumber
  | tRegex (test : String → Bool)

/-- One `PathParams` descriptor `{ value, paramName, paramType }`. -/
structure PathParam where
  value : String
  paramName : String
  paramTy : PathParamTy

/-- A JavaScript value that can appear in the resolved parameter map:
a string, an integer, or `NaN` (what `parseInt` yields when no digits can be
parsed). -/
inductive JSVal
  | vStr (s : String)
  | vInt (n : Int)
  | vNaN
deriving DecidableEq, Repr

/-- JavaScript truthiness of `rawParams[name]` (a string or `undefined`):
`undefined` and the empty string are falsy. -/
def jsTruthyStr : Option String → Bool
  | none => false
  | some "" => false
  | some _ => true

/-- Numeric value of a digit list in the given base, most significant digit
first (the digits are already validated). -/
def digitsVal (base : Nat) : List Char → Nat → Nat
  | [], acc => acc
  | c :: rest, acc =>
    let d := if '0' ≤ c ∧ c ≤ '9' then c.toNat - '0'.toNat
             else if 'a' ≤ c ∧ c ≤ 'f' then c.toNat - 'a'.toNat + 10
             else c.toNat - 'A'.toNat + 10
    digitsVal base rest (acc * base + d)

/-- Is `c` a digit of the given base (10 or 16)? -/
def isBaseDigit (base : Nat) (c : Char) : Bool :=
  if base = 16 then
    ('0' ≤ c && c ≤ '9') || ('a' ≤ c && c ≤ 'f') || ('A' ≤ c && c ≤ 'F')
  else '0' ≤ c && c ≤ '9'

/-- JavaScript `parseInt(s)` (no radix argument): skip leading whitespace,
read an optional sign, detect a `0x`/`0X` prefix (hex), then parse the
longest digit prefix; `none` models `NaN` (no digits at all). -/
def parseIntJS (s : String) : Option Int :=
  let cs := s.data.dropWhile (fun c => c = ' ' || c = '\t' || c = '\n' || c = '\r')
  let signAndRest : Int × List Char :=
    match cs with
    | '-' :: rest => (-1, rest)
    | '+' :: rest => (1, rest)
    | _ => (1, cs)
  let baseAndRest : Nat × List Char :=
    match signAndRest.2 with
    | '0' :: 'x' :: rest => (16, rest)
    | '0' :: 'X' :: rest => (16, rest)
    | _ => (10, signAndRest.2)
  let ds := baseAndRest.2.takeWhile (isBaseDigit baseAndRest.1)
  if ds = [] then none
  else some (signAndRest.1 * Int.ofNat (digitsVal baseAndRest.1 ds 0))

/-- `ServerRoutes.#getPathParamsParser` (routes.ts lines 163-183): the
returned parser walks the declared path parameters; for each one whose raw
value is truthy it writes `params[name] = value` for a `string` descriptor,
`params[name] = parseInt(value)` for a `number` descriptor (the `NaN`
produced by a failed parse is written like any other value), and for a
`RegExp` descriptor the raw value only when the pattern tests true. -/
def pathParamsParser (pathParams : List PathParam)
    (rawParams : List (String × String)) : List (String × JSVal) :=
  pathParams.foldl
    (fun params pp =>
      let paramValue := mapGet rawParams pp.paramName
      if jsTruthyStr paramValue then
        match pp.paramTy, paramValue with
        | .tString, some v => mapSet params pp.paramName (JSVal.vStr v)
        | .tNumber, some v =>
          mapSet params pp.paramName
            (match parseIntJS v with
             | some n => JSVal.vInt n
             | none => JSVal.vNaN)
        | .tRegex test, some v =>
          if test v then mapSet params pp.paramName (JSVal.vStr v) else params
        | _, none => params
      else params)
    []

/-- The instantiation loop of `#getHandlerWithMiddlewaresAttached`
(routes.ts lines 243-248): one `new middleware()` per remaining descriptor,
with fresh instance identifiers taken from a counter. -/
def instantiateLoop : List Nat → Nat → List (Nat × Nat) × Nat
  | [], n => ([], n)
  | d :: rest, n =>
    let r := instantiateLoop rest (n + 1)
    ((n, d) :: r.1, r.2)

/-- `ServerRoutes.#getHandlerWithMiddlewaresAttached` (routes.ts lines
233-252), observed through its allocation behaviour: if the middleware list
is empty nothing is instantiated (the handler itself is returned); otherwise
`new previousMiddleware()` for the head and one `new nextMiddleware()` per
further descriptor.  Returns the `(instanceId, descriptorId)` pairs created
during this call, in construction order, and the advanced counter. -/
def getHandlerWithMiddlewaresAttached (middlewares : List Nat) (nextId : Nat) :
    List (Nat × Nat) × Nat :=
  match middlewares with
  | [] => ([], nextId)
  | first :: rest =>
    let r := instantiateLoop rest (nextId + 1)
    ((nextId, first) :: r.1, r.2)

/-- The raw request handed over by the transport adapter. -/
structure Request where
  method : String
  path : String
deriving DecidableEq, Repr

/-- The structured log record emitted by the dispatcher:
`{ method, path, elapsedTime }`. -/
structure LogEvent where
  method : String
  path : String
  elapsedTime : Nat
deriving DecidableEq, Repr

/-- Everything observable about one invocation of the per-request handler. -/
structure DispatchResult where
  instancesCreated : List (Nat × Nat)
  logs : List LogEvent
  returned : String
  nextInstanceId : Nat
deriving DecidableEq, Repr

/-- `ServerRoutes.#getHandlerForPath` (routes.ts lines 266-285): builds and
returns the per-request function.  On *each* invocation that function calls
`#getHandlerWithMiddlewaresAttached(handler, middlewares)` (line 277),
instantiating the middleware chain anew, awaits the chain
(`chainResponse` stands for the value the chain resolves to; the wall-clock
`elapsedTime` is an input from the environment), emits exactly one log event
`{ method, path, elapsedTime }` after the response resolves, and then
executes `return 'TESTE'` (line 283) — the resolved `response` is discarded. -/
def getHandlerForPath (chainResponse : String) (middlewares : List Nat) :
    Request → Nat → Nat → DispatchResult :=
  fun request elapsedTime nextId =>
    let r := getHandlerWithMiddlewaresAttached middlewares nextId
    let response := chainResponse
    { instancesCreated := r.1
    , logs := [⟨request.method, request.path, elapsedTime⟩]
    , returned := (fun _ => "TESTE") response
    , nextInstanceId := r.2 }

/-- The empty application state. -/
def emptyWorld : World := ⟨[], []⟩

/-- C1 scenario (spec §8 three-level propagation):
`root = path('')` with middleware `[0]`, `mid = pathNested('/m')` with
middleware `[1]`, `leaf = pathNested('/l')` with middleware `[2]` and a
`get` handler; then `mid.nested([leaf])` followed by `root.nested([mid])`
(descendants attached bottom-up, so that the intermediate table is already
populated when the root attaches).  Router indices: root 0, mid 1, leaf 2. -/
def c1World : Option World := do
  let (w, root) ← newRouter 100 "" emptyWorld
  let (w, mid) ← newNestedRouter 100 "/m" w
  let (w, leaf) ← newNestedRouter 100 "/l" w
  let w := routerMiddlewares w root [0]
  let w := routerMiddlewares w mid [1]
  let w := routerMiddlewares w leaf [2]
  let w := routerSetMethod w leaf HttpMethod.mGet 7
  let w ← nestedAttach 100 w mid [leaf]
  nestedAttach 100 w root [mid]

/-- C3 common prefix: `R = path('')` (index 0) and a nested child
`C = pathNested('/a')` (index 1) carrying a `get` handler. -/
def c3Start : Option World := do
  let (w, _root) ← newRouter 100 "" emptyWorld
  let (w, c) ← newNestedRouter 100 "/a" w
  pure (routerSetMethod w c HttpMethod.mGet 9)

/-- C3, declaration order A: `R.middlewares([10]); R.nested([C]);
R.middlewares([11])`. -/
def c3WorldA : Option World := do
  let w ← c3Start
  let w := routerMiddlewares w 0 [10]
  let w ← nestedAttach 100 w 0 [1]
  pure (routerMiddlewares w 0 [11])

/-- C3, declaration order B: `R.middlewares([10]); R.middlewares([11]);
R.nested([C])` — the same two middlewares, both declared before nesting. -/
def c3WorldB : Option World := do
  let w ← c3Start
  let w := routerMiddlewares w 0 [10]
  let w := routerMiddlewares w 0 [11]
  nestedAttach 100 w 0 [1]

/-- C3, the spec's own example: `R.nested([C])` first, then
`R.middlewares([21])`. -/
def c3ExampleWorld : Option World := do
  let w ← c3Start
  let w ← nestedAttach 100 w 0 [1]
  pure (routerMiddlewares w 0 [21])

/-- C3, middleware added to the *child* after it was attached:
`R.nested([C])` first, then `C.middlewares([30])`. -/
def c3ChildWorld : Option World := do
  let w ← c3Start
  let w ← nestedAttach 100 w 0 [1]
  pure (routerMiddlewares w 1 [30])

/-- C4 trace 1: a router on which `get(h1)` then `all(h2)` is called
(handler ids 1 and 2). -/
def c4World1 : Option World := do
  let (w, r) ← newRouter 100 "" emptyWorld
  let w := routerSetMethod w r HttpMethod.mGet 1
  pure (routerSetAll w r 2)

/-- C4 trace 2: a router on which `all(h2)` then `get(h1)` is called. -/
def c4World2 : Option World := do
  let (w, r) ← newRouter 100 "" emptyWorld
  let w := routerSetAll w r 2
  pure (routerSetMethod w r HttpMethod.mGet 1)

/-- The current `__handlers` object of router `r` (the cell its
`handlersRef` points to). -/
def currentHandlers (w : World) (r : Nat) : Option HandlerSet :=
  ((w.getRouter r).handlersRef).map (fun c => w.getCell c)

/-- The handler object captured by the route entry stored under `key` in
router `r`'s table. -/
def entryHandlers (w : World) (r : Nat) (key : String) : Option HandlerSet :=
  (mapGet (w.getRouter r).completePaths key).bind
    (fun e => e.handlersRef.map (fun c => w.getCell c))

/-- C8 scenario: `root = path('')` (index 0), `leaf = pathNested('/l')`
(index 1) with `get(h1)`; `root.nested([leaf])`; then `leaf.post(h2)` is
called *after* composition. -/
def c8World : Option World := do
  let (w, _root) ← newRouter 100 "" emptyWorld
  let (w, leaf) ← newNestedRouter 100 "/l" w
  let w := routerSetMethod w leaf HttpMethod.mGet 1
  let w ← nestedAttach 100 w 0 [leaf]
  pure (routerSetMethod w leaf HttpMethod.mPost 2)

/-- C8 second scenario: the leaf starts with `all(h3)`, is composed, and
then `get(h1)` is called after composition (the in-place
`delete existingHandlers.all` reaches the captured object). -/
def c8WorldAll : Option World := do
  let (w, _root) ← newRouter 100 "" emptyWorld
  let (w, leaf) ← newNestedRouter 100 "/l" w
  let w := routerSetAll w leaf 3
  let w ← nestedAttach 100 w 0 [leaf]
  pure (routerSetMethod w leaf HttpMethod.mGet 1)

/-- C6: the descriptor produced for `/<id: number>`. -/
def c6Descriptor : PathParam := ⟨"<id: number>", "id", PathParamTy.tNumber⟩

/-- `List.getD` after `List.set`: the written value is read back exactly when
the index matches and is in range. -/
theorem listSet_getD {α : Type} (d a : α) :
    ∀ (l : List α) (i j : Nat),
      (l.set i a).getD j d = if i = j ∧ i < l.length then a else l.getD j d := by
  intro l
  induction l with
  | nil => intro i j; cases i <;> simp [List.set]
  | cons x xs ih =>
    intro i j
    cases i with
    | zero => cases j <;> simp [List.set]
    | succ i' =>
      cases j with
      | zero => simp [List.set]
      | succ j' =>
        simpa [List.set, Nat.succ_lt_succ_iff] using ih i' j'

/-- Reading a router back after `setRouter`. -/
theorem getRouter_setRouter (w : World) (v : RouterObj) (i j : Nat) :
    (World.setRouter w i v).getRouter j =
      if i = j ∧ i < w.routers.length then v else w.getRouter j := by
  show (w.routers.set i v).getD j defaultRouterObj = _
  rw [listSet_getD]
  rfl

/-- An out-of-range router index reads as the placeholder object. -/
theorem getRouter_out_of_range (w : World) (r : Nat)
    (h : w.routers.length ≤ r) : w.getRouter r = defaultRouterObj := by
  show w.routers.getD r defaultRouterObj = defaultRouterObj
  exact List.getD_eq_default _ _ h

/-- Claim C1, counterexample: in the three-level tree
`root -> mid('/m') -> leaf('/l').get(h)` (attached bottom-up so that the
root's entry exists at all), `mid`'s route table has *no* entry keyed
`"/l"` — the key the claim requires — because the loop keys the entry by
`mid.urlPath + leaf.urlPath = "/m/l"`. -/
theorem c1_counterexample :
    (c1World.map fun w => mapGet (w.getRouter 1).completePaths "/l") = some none := by
  decide

/-- Claim C1, amended: after bottom-up attachment, `root.routeTable` contains
the key `"/m/l"` with merged middlewares
`root.middlewares ++ mid.middlewares ++ leaf.middlewares = [0, 1, 2]` in that
order, and `mid.routeTable` independently contains exactly one entry — keyed
`"/m/l"` (the intermediate node's own path is part of its own keys), not
`"/l"` — with middlewares `mid.middlewares ++ leaf.middlewares = [1, 2]`. -/
theorem c1_amended_theorem :
    (c1World.map fun w =>
      ((mapGet (w.getRouter 0).completePaths "/m/l").map RouteEntry.middlewares,
       (mapGet (w.getRouter 1).completePaths "/m/l").map RouteEntry.middlewares,
       (w.getRouter 1).completePaths.map Prod.fst))
    = some (some [0, 1, 2], some [1, 2], ["/m/l"]) := by
  decide

/-- Claim C3, counterexample to order-independence: the same two middlewares
`[10]` and `[11]` on the same router `R` with the same nested child yield
entry middlewares `[11, 10]` when the second `middlewares()` call comes after
`R.nested([C])`, but `[10, 11]` when both calls come before it — the final
merged order *does* depend on the declaration order of `.middlewares()`
relative to `.nested()`. -/
theorem c3_counterexample :
    (c3WorldA.map fun w =>
        (mapGet (w.getRouter 0).completePaths "/a").map RouteEntry.middlewares)
      = some (some [11, 10])
    ∧ (c3WorldB.map fun w =>
        (mapGet (w.getRouter 0).completePaths "/a").map RouteEntry.middlewares)
      = some (some [10, 11])
    ∧ ([11, 10] : List Nat) ≠ [10, 11] := by
  refine ⟨by decide, by decide, by decide⟩

/-- Claim C3, amended: `middlewares()` does retro-fit every entry of the
calling node's *own* route table by prepending the newly added middlewares
(and appends them to the node's middleware list); in particular the spec's
example `R.middlewares([M1])` after `R.nested([C])` yields
`R.routeTable["/a"].mergedMiddlewares = [M1]`.  But a `middlewares()` call
touches only the calling router: every other router (heap cells included) is
bit-for-bit unchanged, so middleware added to an already-attached child never
reaches entries already materialized in ancestors' tables — concretely,
`C.middlewares([30])` after `R.nested([C])` leaves
`R.routeTable["/a"].mergedMiddlewares = []` while `C`'s own middleware list
becomes `[30]`.  Order-independence therefore holds only in the spec's
special case — see the counterexample for the general failure. -/
theorem c3_amended_theorem :
    ((c3ExampleWorld.map fun w =>
        (mapGet (w.getRouter 0).completePaths "/a").map RouteEntry.middlewares)
      = some (some [21]))
    ∧ (∀ (w : World) (r : Nat) (mws : List Nat), r < w.routers.length →
        ((routerMiddlewares w r mws).getRouter r).completePaths
          = (w.getRouter r).completePaths.map
              (fun kv => (kv.1, { kv.2 with middlewares := mws ++ kv.2.middlewares })))
    ∧ (∀ (w : World) (r : Nat) (mws : List Nat), r < w.routers.length →
        ((routerMiddlewares w r mws).getRouter r).middlewares
          = (w.getRouter r).middlewares ++ mws)
    ∧ (∀ (w : World) (r : Nat) (mws : List Nat) (j : Nat), j ≠ r →
        (routerMiddlewares w r mws).getRouter j = w.getRouter j)
    ∧ (∀ (w : World) (r : Nat) (mws : List Nat),
        (routerMiddlewares w r mws).cells = w.cells)
    ∧ ((c3ChildWorld.map fun w =>
        ((mapGet (w.getRouter 0).completePaths "/a").map RouteEntry.middlewares,
         (w.getRouter 1).middlewares))
      = some (some [], [30])) := by
  refine ⟨by decide, ?_, ?_, ?_, fun w r mws => rfl, by decide⟩
  · intro w r mws h
    rw [routerMiddlewares, getRouter_setRouter]
    simp [h]
  · intro w r mws h
    rw [routerMiddlewares, getRouter_setRouter]
    simp [h]
  · intro w r mws j hj
    rw [routerMiddlewares, getRouter_setRouter, if_neg]
    intro hcon
    exact hj hcon.1.symm

/-- Claim C4 (confirmed): the handler-set state machine.  Defining a specific
method handler removes any existing `all` entry (and records the new
handler); defining `all` leaves exactly the `all` entry whatever the previous
state was.  Concretely, `node.get(h1).all(h2)` ends with handlers
`{all: h2}` and `node.all(h2).get(h1)` ends with handlers `{get: h1}`. -/
theorem c4_handler_state_machine :
    (∀ (s : HandlerSet) (m : HttpMethod) (v : Nat),
        (specificTransition m v s).hAll = none
        ∧ HandlerSet.getM m (specificTransition m v s) = some v)
    ∧ (∀ (s : HandlerSet) (v : Nat),
        allTransition v s = { emptyHandlers with hAll := some v })
    ∧ (c4World1.map fun w => currentHandlers w 0)
        = some (some { emptyHandlers with hAll := some 2 })
    ∧ (c4World2.map fun w => currentHandlers w 0)
        = some (some { emptyHandlers with hGet := some 1 }) := by
  refine ⟨fun s m v => ?_, fun s v => rfl, by decide, by decide⟩
  cases m <;> exact ⟨rfl, rfl⟩

/-- Claim C6, counterexample: a raw value `"abc"` against the `number`-typed
descriptor for `id` is *not* dropped — `parseInt('abc')` is `NaN` and the
parser stores it, so the resolved map contains the key `id` (with value
`NaN`). -/
theorem c6_counterexample :
    pathParamsParser [c6Descriptor] [("id", "abc")] = [("id", JSVal.vNaN)] := by
  decide

/-- Claim C6, amended: against a `number`-typed descriptor the raw string
`"7"` resolves to the integer `7`; a raw value whose integer parse fails,
such as `"abc"`, stays in the resolved map with value `NaN` (no error is
raised, but the key is not absent); only a missing (or empty, hence falsy)
raw value is skipped. -/
theorem c6_amended_theorem :
    pathParamsParser [c6Descriptor] [("id", "7")] = [("id", JSVal.vInt 7)]
    ∧ pathParamsParser [c6Descriptor] [("id", "abc")] = [("id", JSVal.vNaN)]
    ∧ pathParamsParser [c6Descriptor] [] = ([] : List (String × JSVal)) := by
  refine ⟨by decide, by decide, by decide⟩

/-- Claim C7: parsing `?page=number&tags=string[]&sort=string(asc|desc)?`
does *not* produce the three descriptors the claim requires.  `page` is
parsed correctly, but the `[]` branch of the spec loop consumes three
characters (`index = index + 2` followed by the shared `index++`), skipping
the `&` after `tags=string[]`; the whole `sort=string(asc|desc)?` tail is
swallowed into the `tags` descriptor (type fragments
`["stringsort=stringasc", "desc"]`, `isOptional` set by `sort`'s `?`), and no
`sort` key exists at all. -/
theorem c7_query_template_bug :
    (extractUrlAndQueryParametersFromPath 300
        "?page=number&tags=string[]&sort=string(asc|desc)?").map ParsedPath.queryParams
      = some [("page", ⟨["number"], false, false, none⟩),
              ("tags", ⟨["stringsort=stringasc", "desc"], true, true, none⟩)] := by
  decide

/-- Claim C9: the per-request handler built by `#getHandlerForPath` does emit
exactly one `{method, path, elapsedTime}` log event after the chain resolves,
but it returns the literal string `'TESTE'` (routes.ts line 283) to the
transport adapter — the handler's resolved result (`"hello"` here) is
computed and discarded. -/
theorem c9_returns_literal_teste :
    getHandlerForPath "hello" [] ⟨"GET", "/x"⟩ 5 0
      = { instancesCreated := [], logs := [⟨"GET", "/x", 5⟩],
          returned := "TESTE", nextInstanceId := 0 }
    ∧ ("TESTE" : String) ≠ "hello" := by
  refine ⟨by decide, by decide⟩

/-- Claim C2, counterexample: with one middleware descriptor (`5`), invoking
the composed per-request handler for two different requests constructs a
fresh middleware instance on each invocation (instance `0` for the first
request, instance `1` for the second) — the two requests do not run the same
instance, and instantiation happens per request, not at registration. -/
theorem c2_counterexample :
    getHandlerForPath "ok" [5] ⟨"GET", "/a"⟩ 3 0
      = { instancesCreated := [(0, 5)], logs := [⟨"GET", "/a", 3⟩],
          returned := "TESTE", nextInstanceId := 1 }
    ∧ getHandlerForPath "ok" [5] ⟨"GET", "/b"⟩ 4 1
      = { instancesCreated := [(1, 5)], logs := [⟨"GET", "/b", 4⟩],
          returned := "TESTE", nextInstanceId := 2 }
    ∧ ([(0, 5)] : List (Nat × Nat)) ≠ [(1, 5)] := by
  refine ⟨by decide, by decide, by decide⟩

/-- The allocation behaviour of the instantiation loop: consecutive instance
identifiers starting at the counter, one per descriptor. -/
theorem instantiateLoop_spec :
    ∀ (l : List Nat) (n : Nat),
      (instantiateLoop l n).1.map Prod.fst = List.range' n l.length
      ∧ (instantiateLoop l n).1.map Prod.snd = l
      ∧ (instantiateLoop l n).2 = n + l.length := by
  intro l
  induction l with
  | nil => intro n; simp [instantiateLoop]
  | cons d rest ih =>
    intro n
    have h := ih (n + 1)
    refine ⟨?_, ?_, ?_⟩
    · simp [instantiateLoop, List.range'_succ, h.1]
    · simp [instantiateLoop, h.2.1]
    · simp [instantiateLoop, h.2.2]
      omega

/-- Claim C2, amended: every invocation of the per-request handler
instantiates each middleware descriptor of the route exactly once, with
freshly allocated consecutive instance identifiers starting at the current
counter; the counter advances by the number of descriptors, so two sequential
requests can never share an instance. -/
theorem c2_amended_theorem :
    ∀ (resp : String) (mws : List Nat) (req : Request) (e n : Nat),
      (getHandlerForPath resp mws req e n).instancesCreated.map Prod.fst
          = List.range' n mws.length
      ∧ (getHandlerForPath resp mws req e n).instancesCreated.map Prod.snd = mws
      ∧ (getHandlerForPath resp mws req e n).nextInstanceId = n + mws.length := by
  intro resp mws req e n
  cases mws with
  | nil => exact ⟨rfl, rfl, rfl⟩
  | cons d rest =>
    have h := instantiateLoop_spec rest (n + 1)
    refine ⟨?_, ?_, ?_⟩
    · simp [getHandlerForPath, getHandlerWithMiddlewaresAttached, List.range'_succ, h.1]
    · simp [getHandlerForPath, getHandlerWithMiddlewaresAttached, h.2.1]
    · simp [getHandlerForPath, getHandlerWithMiddlewaresAttached, h.2.2]
      omega

/-- Claim C8, counterexample: `leaf('/l').get(h1)` composed into the root,
then `leaf.post(h2)` *after* composition: the materialized entry still shows
the handler object captured at attach time (`{get: h1}`) while the node's
current handler set is `{get: h1, post: h2}` — the route table is stale. -/
theorem c8_counterexample :
    (c8World.map fun w => (entryHandlers w 0 "/l", currentHandlers w 1))
      = some (some { emptyHandlers with hGet := some 1 },
              some { emptyHandlers with hGet := some 1, hPost := some 2 })
    ∧ ({ emptyHandlers with hGet := some 1 } : HandlerSet)
        ≠ { emptyHandlers with hGet := some 1, hPost := some 2 } := by
  refine ⟨by decide, by decide⟩

/-- Claim C8, amended: defining a method handler after composition does not
update already-materialized route entries.  An entry keeps the `__handlers`
object captured at attach time: a later `post(h2)` is invisible to it, and
because a specific-method call first executes
`delete existingHandlers.all` on the *old shared object*, an entry that had
captured `{all: h3}` is left with no handlers at all after a post-composition
`get(h1)` (while the node itself holds `{get: h1}`). -/
theorem c8_amended_theorem :
    (c8World.map fun w => (entryHandlers w 0 "/l", currentHandlers w 1))
      = some (some { emptyHandlers with hGet := some 1 },
              some { emptyHandlers with hGet := some 1, hPost := some 2 })
    ∧ (c8WorldAll.map fun w => (entryHandlers w 0 "/l", currentHandlers w 1))
      = some (some emptyHandlers, some { emptyHandlers with hGet := some 1 }) := by
  refine ⟨by decide, by decide⟩

/-- Character inventory of `"/<id"` from position 2 on: the characters `i`
(position 2) and `d` (position 3), then `undefined` forever. -/
theorem c5_get_char (i : Nat) (hi : 2 ≤ i) :
    jsGet "/<id".data i = some 'i' ∨ jsGet "/<id".data i = some 'd'
      ∨ jsGet "/<id".data i = none := by
  rcases Nat.lt_or_ge i 4 with h4 | h4
  · have h23 : i = 2 ∨ i = 3 := by omega
    rcases h23 with rfl | rfl
    · exact Or.inl (by decide)
    · exact Or.inr (Or.inl (by decide))
  · refine Or.inr (Or.inr ?_)
    have hlen : ("/<id".data).length = 4 := by decide
    rw [jsGet, List.get?_eq_none, hlen]
    omega

/-- The name loop of `extractUrlParamsFromPath` never finds the `:` it is
waiting for in `"/<id"`: starting anywhere at or after the `i`, it runs out
of any amount of fuel (the source loop runs forever). -/
theorem c5_nameLoop_div :
    ∀ (fuel i : Nat), 2 ≤ i → ∀ (name : String),
      urlNameLoop fuel "/<id".data i name = none := by
  intro fuel
  induction fuel with
  | zero => intro i hi name; rfl
  | succ f ih =>
    intro i hi name
    have hc := c5_get_char i hi
    have hcolon : ¬ jsGet "/<id".data i = some ':' := by
      rcases hc with h | h | h <;> simp [h]
    have hspace : ¬ jsGet "/<id".data i = some ' ' := by
      rcases hc with h | h | h <;> simp [h]
    rw [urlNameLoop]
    simp only [hcolon, if_false, skipSpace, hspace, ite_false]
    exact ih (i + 1) (by omega) _

/-- The outer loop of `extractUrlParamsFromPath` on `"/<id"` immediately
enters the diverging name loop. -/
theorem c5_urlOuter_div (fuel : Nat) :
    urlOuterLoop fuel "/<id".data 2 "" "" "" = none := by
  cases fuel with
  | zero => rfl
  | succ f =>
    rw [urlOuterLoop]
    have h2 : jsGet "/<id".data 2 = some 'i' := by decide
    simp [h2, skipSpace, c5_nameLoop_div f 2 (by omega)]

/-- `extractUrlParamsFromPath` on `"/<id"` starting at the `<` diverges for
every fuel. -/
theorem c5_extract_div (fuel : Nat) :
    extractUrlParamsFromPath fuel "/<id".data [] 1 = none := by
  rw [extractUrlParamsFromPath, c5_urlOuter_div fuel]


/-- Claim C5: the path `"/<id"` contains a `<` that is never closed, and the
template scanner does *not* terminate on it — for every amount of fuel the
whole of `extractUrlAndQueryParametersFromPath` fails to finish (the source's
character scan loops forever reading `undefined` past the end of the string),
and no `PathTemplateSyntaxError` is raised (no such error exists anywhere in
the code). -/
theorem c5_unclosed_param_diverges :
    ∀ (fuel : Nat), extractUrlAndQueryParametersFromPath fuel "/<id" = none := by
  intro fuel
  match fuel with
  | 0 => rfl
  | 1 => rfl
  | g + 2 =>
    have hmain : mainParseLoop (g + 1) "/<id".data ⟨1, "", [], [], [], []⟩ = none := by
      have h := c5_extract_div g
      rw [mainParseLoop.eq_def]
      simp only [h]
      rw [if_pos (by decide : ("/<id".data).length > 1),
          if_pos (by decide : jsGet "/<id".data 1 = some '<')]
    have hstep : mainParseLoop (g + 2) "/<id".data ⟨0, "", [], [], [], []⟩
        = mainParseLoop (g + 1) "/<id".data ⟨1, "", [], [], [], []⟩ := rfl
    rw [extractUrlAndQueryParametersFromPath.eq_def]
    simp only [hstep.trans hmain]

/-- Two router objects agree on every field except possibly the route table
(`completePaths`). -/
def sameFrame (a b : RouterObj) : Prop :=
  a = { b with completePaths := a.completePaths }

theorem sameFrame_refl (a : RouterObj) : sameFrame a a := rfl

theorem sameFrame_trans {a b c : RouterObj}
    (h1 : sameFrame a b) (h2 : sameFrame b c) : sameFrame a c := by
  cases a; cases b; cases c
  simp_all [sameFrame]

theorem sameFrame_parent {a b : RouterObj} (h : sameFrame a b) :
    a.parentRouter = b.parentRouter := by
  cases a; cases b
  simp_all [sameFrame]

/-- `w'` differs from `w` at most in the route table of router `r`. -/
def TableOnly (r : Nat) (w w' : World) : Prop :=
  w'.cells = w.cells ∧ w'.routers.length = w.routers.length
  ∧ (∀ j, sameFrame (w'.getRouter j) (w.getRouter j))
  ∧ (∀ j, j ≠ r → w'.getRouter j = w.getRouter j)

theorem tableOnly_refl (r : Nat) (w : World) : TableOnly r w w :=
  ⟨rfl, rfl, fun _ => sameFrame_refl _, fun _ _ => rfl⟩

theorem tableOnly_trans {r : Nat} {w w1 w2 : World}
    (h1 : TableOnly r w w1) (h2 : TableOnly r w1 w2) : TableOnly r w w2 :=
  ⟨h2.1.trans h1.1, h2.2.1.trans h1.2.1,
   fun j => sameFrame_trans (h2.2.2.1 j) (h1.2.2.1 j),
   fun j hj => (h2.2.2.2 j hj).trans (h1.2.2.2 j hj)⟩

/-- Overwriting only the route table of router `r` is a `TableOnly` step. -/
theorem tableOnly_setTable (w : World) (r : Nat) (tbl : List (String × RouteEntry)) :
    TableOnly r w (w.setRouter r { w.getRouter r with completePaths := tbl }) := by
  refine ⟨rfl, by simp [World.setRouter], fun j => ?_, fun j hj => ?_⟩
  · rw [getRouter_setRouter]
    by_cases hc : r = j ∧ r < w.routers.length
    · rw [if_pos hc]
      rcases hc with ⟨rfl, _⟩
      rfl
    · rw [if_neg hc]
      exact sameFrame_refl _
  · rw [getRouter_setRouter, if_neg]
    intro hc
    exact hj hc.1.symm

theorem tableOnly_foldl {α : Type} (r : Nat) (f : World → α → World)
    (hf : ∀ (w : World) (a : α), TableOnly r w (f w a)) :
    ∀ (l : List α) (w : World), TableOnly r w (l.foldl f w) := by
  intro l
  induction l with
  | nil => intro w; exact tableOnly_refl r w
  | cons x xs ih => intro w; exact tableOnly_trans (hf w x) (ih (f w x))

/-- An `if` that either rewrites only `r`'s table or does nothing is a
`TableOnly` step. -/
theorem tableOnly_ite_setTable (w : World) (r : Nat) (b : Prop) [Decidable b]
    (tbl : List (String × RouteEntry)) :
    TableOnly r w
      (if b then w.setRouter r { w.getRouter r with completePaths := tbl } else w) := by
  split
  · exact tableOnly_setTable w r tbl
  · exact tableOnly_refl r w

/-- One propagation iteration only rewrites the route table of the ancestor
it is visiting. -/
theorem appendStep_tableOnly (w : World) (r c : Nat) :
    TableOnly r w (appendStep w r c) := by
  unfold appendStep
  dsimp only
  split
  · exact tableOnly_trans (tableOnly_ite_setTable w r _ _)
      (tableOnly_foldl r _ (fun wAcc kv => tableOnly_setTable wAcc r _) _ _)
  · exact tableOnly_ite_setTable w r _ _

/-- `parentChain` only looks at parent references, so any two worlds with the
same parent references have the same chains. -/
theorem parentChain_congr (w w' : World)
    (hp : ∀ j, (w'.getRouter j).parentRouter = (w.getRouter j).parentRouter) :
    ∀ (fuel : Nat) (rid : Option Nat), parentChain fuel w' rid = parentChain fuel w rid := by
  intro fuel
  induction fuel with
  | zero => intro rid; rfl
  | succ f ih =>
    intro rid
    cases rid with
    | none => rfl
    | some r =>
      rw [parentChain, parentChain, hp r, ih]

/-- `parentChain` is also stable under a change confined to a router that is
not on the chain. -/
theorem parentChain_congr_outside (w w' : World) (c : Nat)
    (hp : ∀ j, j ≠ c → (w'.getRouter j).parentRouter = (w.getRouter j).parentRouter) :
    ∀ (fuel : Nat) (rid : Option Nat), c ∉ parentChain fuel w rid →
      parentChain fuel w' rid = parentChain fuel w rid := by
  intro fuel
  induction fuel with
  | zero => intro rid _; rfl
  | succ f ih =>
    intro rid hc
    cases rid with
    | none => rfl
    | some r =>
      rw [parentChain] at hc
      simp only [List.mem_cons, not_or] at hc
      rw [parentChain, parentChain, hp r (fun hrc => hc.1 hrc.symm), ih _ hc.2]

/-- The propagation walk changes nothing but the route tables of the routers
on the parent chain it visits: heap cells, router count, every non-table
field, and the whole state of off-chain routers are preserved. -/
theorem appendChildLoop_spec :
    ∀ (fuel : Nat) (w : World) (rid : Option Nat) (c : Nat) (w' : World),
      appendChildLoop fuel w rid c = some w' →
      w'.cells = w.cells ∧ w'.routers.length = w.routers.length
      ∧ (∀ j, sameFrame (w'.getRouter j) (w.getRouter j))
      ∧ (∀ j, j ∉ parentChain fuel w rid → w'.getRouter j = w.getRouter j) := by
  intro fuel
  induction fuel with
  | zero =>
    intro w rid c w' h
    cases h
  | succ f ih =>
    intro w rid c w' h
    cases rid with
    | none =>
      cases h
      exact ⟨rfl, rfl, fun j => sameFrame_refl _, fun _ _ => rfl⟩
    | some r =>
      rw [appendChildLoop] at h
      have hT := appendStep_tableOnly w r c
      have hrec := ih (appendStep w r c)
        (((appendStep w r c).getRouter r).parentRouter) c w' h
      have hparents : ∀ j, (((appendStep w r c)).getRouter j).parentRouter
          = (w.getRouter j).parentRouter := fun j => sameFrame_parent (hT.2.2.1 j)
      have hpr : ((appendStep w r c).getRouter r).parentRouter
          = (w.getRouter r).parentRouter := hparents r
      refine ⟨hrec.1.trans hT.1, hrec.2.1.trans hT.2.1,
        fun j => sameFrame_trans (hrec.2.2.1 j) (hT.2.2.1 j),
        fun j hj => ?_⟩
      rw [parentChain] at hj
      simp only [List.mem_cons, not_or] at hj
      have hchain : parentChain f (appendStep w r c)
            (((appendStep w r c)).getRouter r).parentRouter
          = parentChain f w ((w.getRouter r).parentRouter) := by
        rw [hpr]
        exact parentChain_congr w _ hparents f _
      have h2 := hrec.2.2.2 j (by rw [hchain]; exact hj.2)
      rw [h2]
      exact hT.2.2.2 j hj.1

/-- What the constructor does to the world: it appends one fresh router
(with no parent) and touches nothing else. -/
theorem newRouter_spec (fuel : Nat) (path : String) (w wD : World) (i : Nat)
    (h : newRouter fuel path w = some (wD, i)) :
    wD.cells = w.cells ∧ wD.routers.length = w.routers.length + 1
    ∧ (∀ j, j < w.routers.length → wD.getRouter j = w.getRouter j)
    ∧ (∀ j, (wD.getRouter j).parentRouter = (w.getRouter j).parentRouter) := by
  rw [newRouter] at h
  cases hE : extractUrlAndQueryParametersFromPath fuel path with
  | none => rw [hE] at h; cases h
  | some parsed =>
    rw [hE] at h
    injection h with h'
    injection h' with h1 h2
    subst h1
    refine ⟨rfl, by simp, fun j hj => ?_, fun j => ?_⟩
    · show (w.routers ++ [_]).getD j defaultRouterObj = _
      rw [List.getD_append _ _ _ _ hj]
      rfl
    · by_cases hj : j < w.routers.length
      · show ((w.routers ++ [_]).getD j defaultRouterObj).parentRouter = _
        rw [List.getD_append _ _ _ _ hj]
        rfl
      · have hge := Nat.le_of_not_lt hj
        have hR : (w.getRouter j).parentRouter = none := by
          rw [getRouter_out_of_range w j hge]
          rfl
        rw [hR]
        show ((w.routers ++ [_]).getD j defaultRouterObj).parentRouter = none
        rw [List.getD_append_right _ _ _ _ hge]
        rcases Nat.eq_or_lt_of_le hge with heq | hlt
        · rw [← heq, Nat.sub_self]
          rfl
        · have : 1 ≤ j - w.routers.length := by omega
          rw [List.getD_eq_default]
          · rfl
          · simpa using this

/-- Claim C10 (confirmed): attaching a router as a child via `nested([...])`
mutates the child only by setting its parent back-reference and its
created-from-nested flag (its path, parsed parameter maps, middleware list,
handler reference, and its own route table are untouched), and the
propagation step writes only into the route tables of the attaching node and
its ancestors: heap cells are unchanged, every other pre-existing router is
bit-for-bit unchanged, and even on-chain routers keep every non-table field
(the attaching node additionally records its new children). -/
theorem c10_frame (fuel : Nat) (w : World) (p c : Nat) (w' : World)
    (hAttach : nestedAttach fuel w p [c] = some w')
    (hpc : p ≠ c)
    (hcLen : c < w.routers.length)
    (hpLen : p < w.routers.length)
    (hchain : c ∉ parentChain fuel w (some p)) :
    w'.cells = w.cells
    ∧ w'.getRouter c
        = { w.getRouter c with parentRouter := some p, wasCreatedFromNested := false }
    ∧ (∀ j, j < w.routers.length → j ≠ c → j ≠ p →
        sameFrame (w'.getRouter j) (w.getRouter j))
    ∧ (∀ j, j < w.routers.length → j ≠ c → j ≠ p →
        j ∉ parentChain fuel w (some p) → w'.getRouter j = w.getRouter j)
    ∧ w'.getRouter p = { w.getRouter p with
        completePaths := (w'.getRouter p).completePaths,
        children := (w'.getRouter p).children } := by
  simp only [nestedAttach, List.foldlM, bind, Option.bind, pure] at hAttach
  cases hN : newRouter fuel (World.getRouter w p).path w with
  | none => rw [hN] at hAttach; cases hAttach
  | some pr =>
    obtain ⟨wD, dId⟩ := pr
    rw [hN] at hAttach
    dsimp only at hAttach
    cases hL : appendChildToParentRouter fuel
        (wD.setRouter c
          { wD.getRouter c with parentRouter := some p, wasCreatedFromNested := false })
        p c with
    | none => rw [hL] at hAttach; cases hAttach
    | some wL =>
      rw [hL] at hAttach
      injection hAttach with hW
      obtain ⟨hDcells, hDlen, hDget, hDparent⟩ := newRouter_spec fuel _ w wD dId hN
      generalize hwC : (wD.setRouter c { wD.getRouter c with parentRouter := some p, wasCreatedFromNested := false }) = wC at hL
      obtain ⟨hLcells, hLlen, hLframe, hLtbl⟩ := appendChildLoop_spec fuel wC (some p) c wL hL
      have hchainD : parentChain fuel wD (some p) = parentChain fuel w (some p) :=
        parentChain_congr w wD hDparent fuel (some p)
      have hCparent : ∀ j, j ≠ c →
          (wC.getRouter j).parentRouter = (wD.getRouter j).parentRouter := by
        intro j hj
        rw [← hwC, getRouter_setRouter, if_neg]
        intro hcon
        exact hj hcon.1.symm
      have hchainC : parentChain fuel wC (some p) = parentChain fuel w (some p) := by
        rw [parentChain_congr_outside wD wC c hCparent fuel (some p)
              (by rw [hchainD]; exact hchain), hchainD]
      have hcD : c < wD.routers.length := by omega
      have hwCc : wC.getRouter c
          = { wD.getRouter c with parentRouter := some p, wasCreatedFromNested := false } := by
        rw [← hwC, getRouter_setRouter, if_pos ⟨rfl, hcD⟩]
      have hwDc : wD.getRouter c = w.getRouter c := hDget c hcLen
      have hCget : ∀ j, j < w.routers.length → j ≠ c →
          wC.getRouter j = w.getRouter j := by
        intro j hjLen hjc
        rw [← hwC, getRouter_setRouter, if_neg (fun hcon => hjc hcon.1.symm), hDget j hjLen]
      have hCcells : wC.cells = wD.cells := by
        rw [← hwC]
        rfl
      have hClen : wC.routers.length = wD.routers.length := by
        rw [← hwC]
        simp [World.setRouter]
      subst hW
      refine ⟨?_, ?_, ?_, ?_, ?_⟩
      · calc ((wL.setRouter p _).cells) = wL.cells := rfl
          _ = wC.cells := hLcells
          _ = wD.cells := hCcells
          _ = w.cells := hDcells
      · have h1 : ∀ X, (wL.setRouter p X).getRouter c = wL.getRouter c := by
          intro X
          rw [getRouter_setRouter, if_neg]
          intro hcon
          exact hpc hcon.1
        rw [h1, hLtbl c (by rw [hchainC]; exact hchain), hwCc, hwDc]
      · intro j hjLen hjc hjp
        have h1 : ∀ X, (wL.setRouter p X).getRouter j = wL.getRouter j := by
          intro X
          rw [getRouter_setRouter, if_neg]
          intro hcon
          exact hjp hcon.1.symm
        rw [h1]
        have hfr := hLframe j
        rw [hCget j hjLen hjc] at hfr
        exact hfr
      · intro j hjLen hjc hjp hjchain
        have h1 : ∀ X, (wL.setRouter p X).getRouter j = wL.getRouter j := by
          intro X
          rw [getRouter_setRouter, if_neg]
          intro hcon
          exact hjp hcon.1.symm
        rw [h1, hLtbl j (by rw [hchainC]; exact hjchain), hCget j hjLen hjc]
      · have hpL : p < wL.routers.length := by
          rw [hLlen, hClen]
          omega
        have hfp : sameFrame (wL.getRouter p) (w.getRouter p) := by
          have hfr := hLframe p
          rw [hCget p hpLen (fun hx => hpc hx)] at hfr
          exact hfr
        rw [getRouter_setRouter, if_pos ⟨rfl, hpL⟩]
        unfold sameFrame at hfp
        rw [hfp]

/-- Concrete two-router world for exercising `c10_frame`: a root with empty
path and a child router declared at `"/l"`. -/
def c10StartW : World :=
  ⟨[defaultRouterObj, { defaultRouterObj with path := "/l", urlPath := "/l" }], []⟩

/-- The world produced by `c10StartW`'s root nesting the child. -/
def c10ResW : World := (nestedAttach 5 c10StartW 0 [1]).getD ⟨[], []⟩

/-- Witness for `c10_frame`: all hypotheses hold for the concrete two-router
world, and the child ends up mutated exactly in its parent reference and
nested flag. -/
theorem c10_frame_witness :
    (nestedAttach 5 c10StartW 0 [1] = some c10ResW
      ∧ (0 : Nat) ≠ 1
      ∧ 1 < c10StartW.routers.length
      ∧ 0 < c10StartW.routers.length
      ∧ 1 ∉ parentChain 5 c10StartW (some 0))
    ∧ c10ResW.getRouter 1
        = { c10StartW.getRouter 1 with parentRouter := some 0, wasCreatedFromNested := false } :=
  ⟨⟨by decide, by decide, by decide, by decide, by decide⟩,
   (c10_frame 5 c10StartW 0 1 c10ResW (by decide) (by decide) (by decide)
      (by decide) (by decide)).2.1⟩

/-- Witness for `c3_amended_theorem`: its in-range and distinct-index
hypotheses discharged on a concrete two-router world. -/
theorem c3_amended_witness :
    (0 < (⟨[defaultRouterObj, defaultRouterObj], []⟩ : World).routers.length
      ∧ ((routerMiddlewares ⟨[defaultRouterObj, defaultRouterObj], []⟩ 0 [4]).getRouter 0).middlewares
          = ((⟨[defaultRouterObj, defaultRouterObj], []⟩ : World).getRouter 0).middlewares ++ [4])
    ∧ ((1 : Nat) ≠ 0
      ∧ (routerMiddlewares ⟨[defaultRouterObj, defaultRouterObj], []⟩ 0 [4]).getRouter 1
          = (⟨[defaultRouterObj, defaultRouterObj], []⟩ : World).getRouter 1) :=
  ⟨⟨by decide,
    c3_amended_theorem.2.2.1 ⟨[defaultRouterObj, defaultRouterObj], []⟩ 0 [4] (by decide)⟩,
   ⟨by decide,
    c3_amended_theorem.2.2.2.1 ⟨[defaultRouterObj, defaultRouterObj], []⟩ 0 [4] 1 (by decide)⟩⟩
